import Mathlib

/-!
Verification of the reliability and framing core of the naia networking
library: the `AckManager` (src/shared/src/ack_manager.rs), the
`PacketWriter` (src/src/packet_writer.rs) and the client
`ServerConnection` (src/client/src/server_connection.rs), shallowly
embedded over `Nat`-valued bytes and sequence numbers.  Machine integers
are modelled as `Nat` with explicit reduction modulo 2^16 (sequence
numbers) or 2^8 (bytes) where the Rust code wraps.
-/

set_option maxRecDepth 8000

namespace Naia

/-- Wrap-around 16-bit addition, the model of `u16::wrapping_add`. -/
def wrapAdd (a b : Nat) : Nat := (a + b) % 65536

/-- Wrap-around 16-bit subtraction, the model of `u16::wrapping_sub`. -/
def wrapSub (a b : Nat) : Nat := (a % 65536 + 65536 - b % 65536) % 65536

/-- Modelled from the spec: the missing `sequence_buffer.rs` defines
`sequence_greater_than`; per the spec a wrap-aware comparison holds iff
the operands differ and their wrapped difference is below 2^15. -/
def sequence_greater_than (s1 s2 : Nat) : Bool :=
  decide (s1 ≠ s2 ∧ wrapSub s1 s2 < 32768)

/-- Modelled from the spec: the packet-type byte of the standard header;
the variant list comes from the spec's data model. -/
inductive PacketType where
  | handshake
  | data
  | heartbeat
deriving DecidableEq, Repr

/-- Modelled from the spec: one-byte encoding of the packet type (the
concrete byte values are assigned, not observable by any claim). -/
def PacketType.toByte : PacketType → Nat
  | .handshake => 0
  | .data => 1
  | .heartbeat => 2

/-- Modelled from the spec: decoding of the packet-type byte; unknown
bytes default to heartbeat (no claim observes this choice). -/
def PacketType.ofByte (b : Nat) : PacketType :=
  if b = 0 then .handshake else if b = 1 then .data else .heartbeat

/-- Modelled from the spec: the fixed-width `StandardHeader` with fields
packet_type (u8), sequence (u16), ack_seq (u16), ack_field (u32). -/
structure StandardHeader where
  packetType : PacketType
  sequence : Nat
  ackSeq : Nat
  ackField : Nat
deriving DecidableEq, Repr

/-- Big-endian serialization of a u16, as `byteorder::BigEndian`. -/
def u16BE (n : Nat) : List Nat := [n / 256 % 256, n % 256]

/-- Big-endian serialization of a u32. -/
def u32BE (n : Nat) : List Nat :=
  [n / 16777216 % 256, n / 65536 % 256, n / 256 % 256, n % 256]

/-- Modelled from the spec: `StandardHeader::write`, 9 bytes in field
order, big-endian. -/
def StandardHeader.write (h : StandardHeader) : List Nat :=
  h.packetType.toByte % 256 :: (u16BE h.sequence ++ (u16BE h.ackSeq ++ u32BE h.ackField))

/-- Byte `i` of a payload (payloads are byte lists; a missing byte reads
as 0, matching the spec's note that callers pre-validate length). -/
def byteAt (p : List Nat) (i : Nat) : Nat := p.getD i 0 % 256

/-- Modelled from the spec: `StandardHeader::read` parses the 9-byte
prefix and returns the header together with the remaining bytes. -/
def StandardHeader.read (p : List Nat) : StandardHeader × List Nat :=
  ({ packetType := PacketType.ofByte (byteAt p 0),
     sequence := byteAt p 1 * 256 + byteAt p 2,
     ackSeq := byteAt p 3 * 256 + byteAt p 4,
     ackField := ((byteAt p 5 * 256 + byteAt p 6) * 256 + byteAt p 7) * 256 + byteAt p 8 },
   p.drop 9)

/-- The ack_seq field of the header parsed from a payload. -/
def headerAckSeq (p : List Nat) : Nat := (StandardHeader.read p).1.ackSeq

/-- The ack_field of the header parsed from a payload. -/
def headerAckField (p : List Nat) : Nat := (StandardHeader.read p).1.ackField

/-- `SentPacket` from ack_manager.rs: the id and packet type recorded
for each outgoing packet. -/
structure SentPacket where
  id : Nat
  packetType : PacketType
deriving DecidableEq, Repr

/-- Lookup in the sent-packets map (the Rust `HashMap<u16, SentPacket>`
modelled as an association list with `Nat` keys). -/
def lookupSent : List (Nat × SentPacket) → Nat → Option SentPacket
  | [], _ => none
  | (k0, v) :: rest, k => if k0 = k then some v else lookupSent rest k

/-- Removal from the sent-packets map. -/
def removeSent : List (Nat × SentPacket) → Nat → List (Nat × SentPacket)
  | [], _ => []
  | (k0, v) :: rest, k =>
    if k0 = k then removeSent rest k else (k0, v) :: removeSent rest k

/-- Insertion into the sent-packets map (HashMap insert replaces any
entry at the same key). -/
def insertSent (m : List (Nat × SentPacket)) (k : Nat) (v : SentPacket) :
    List (Nat × SentPacket) :=
  (k, v) :: removeSent m k

/-- Modelled from the spec: the missing `sequence_buffer.rs` ring of
received-packet markers; slot `seq % capacity` records the sequence
stored there, `sequenceNum` is one past the most recently inserted
sequence. -/
structure SequenceBuffer where
  capacity : Nat
  sequenceNum : Nat
  slots : List (Option Nat)
deriving DecidableEq, Repr

/-- Modelled from the spec: an empty buffer of the given capacity. -/
def SequenceBuffer.withCapacity (c : Nat) : SequenceBuffer :=
  { capacity := c, sequenceNum := 0, slots := List.replicate c none }

/-- Modelled from the spec: insert advances the head when the sequence
is newer under wrap-around comparison; an older sequence is stored only
while still within capacity of the head. -/
def SequenceBuffer.insert (b : SequenceBuffer) (seq : Nat) : SequenceBuffer :=
  let seq := seq % 65536
  if sequence_greater_than (wrapAdd seq 1) b.sequenceNum then
    { b with sequenceNum := wrapAdd seq 1,
             slots := b.slots.set (seq % b.capacity) (some seq) }
  else if wrapSub (wrapSub b.sequenceNum 1) seq < b.capacity then
    { b with slots := b.slots.set (seq % b.capacity) (some seq) }
  else b

/-- Modelled from the spec: membership probe of the ring; true iff the
slot at `seq % capacity` currently records `seq`. -/
def SequenceBuffer.seqExists (b : SequenceBuffer) (seq : Nat) : Bool :=
  b.slots.getD (seq % 65536 % b.capacity) none == some (seq % 65536)

/-- A delivered / dropped notification as emitted to the event manager
and to the optional entity notifiable (`notify_packet_delivered` /
`notify_packet_dropped` in ack_manager.rs pass the same sequence to
both collaborators, so one event stream models both). -/
inductive AckEvent where
  | delivered (seq : Nat)
  | dropped (seq : Nat)
deriving DecidableEq, Repr

/-- Whether an ack event concerns the sent sequence `s`. -/
def isForSeq (s : Nat) : AckEvent → Bool
  | .delivered t => t = s
  | .dropped t => t = s

/-- The sub-list of events concerning sent sequence `s`. -/
def eventsFor (s : Nat) (evs : List AckEvent) : List AckEvent :=
  evs.filter (isForSeq s)

/-- The ack-bitfield loop of `AckManager::process_incoming`
(ack_manager.rs lines 83-105): iterate `i = i0, i0+1, ...` for `fuel`
steps; at each step probe `sent` at `ack_seq - i` (wrapping), emit
delivered / dropped for Data packets according to the low bit of the
shifting ack field, and remove the entry. -/
def processAckWindow (ackSeq : Nat) (field : Nat) (i0 : Nat) :
    Nat → List (Nat × SentPacket) → List (Nat × SentPacket) × List AckEvent
  | 0, sent => (sent, [])
  | fuel + 1, sent =>
    let s := wrapSub ackSeq i0
    match lookupSent sent s with
    | some sp =>
      let evs := if sp.packetType = PacketType.data then
          (if field % 2 = 1 then [AckEvent.delivered s] else [AckEvent.dropped s])
        else []
      let res := processAckWindow ackSeq (field / 2) (i0 + 1) fuel (removeSent sent s)
      (res.1, evs ++ res.2)
    | none =>
      processAckWindow ackSeq (field / 2) (i0 + 1) fuel sent

/-- The `AckManager` state (ack_manager.rs). -/
structure AckManager where
  sequenceNumber : Nat
  remoteAckSequenceNum : Nat
  sentPackets : List (Nat × SentPacket)
  receivedPackets : SequenceBuffer
deriving DecidableEq, Repr

/-- `AckManager::new`: local sequence 0, remote ack 2^16 - 1, empty
sent map, received ring of capacity 32 + 1. -/
def AckManager.new : AckManager :=
  { sequenceNumber := 0,
    remoteAckSequenceNum := 65535,
    sentPackets := [],
    receivedPackets := SequenceBuffer.withCapacity 33 }

/-- The result of `AckManager::process_incoming`: the mutated state,
the delivered / dropped notifications in emission order, and the
payload with the standard header stripped. -/
structure IncomingResult where
  state : AckManager
  events : List AckEvent
  stripped : List Nat
deriving Repr

/-- The direct-ack clause of `process_incoming` (ack_manager.rs lines
72-79): the packet at ack_seq itself was clearly received; a Data entry
emits delivered, and the entry is removed in any case. -/
def directAck (sent : List (Nat × SentPacket)) (ras : Nat) :
    List (Nat × SentPacket) × List AckEvent :=
  match lookupSent sent ras with
  | some sp =>
    (removeSent sent ras,
     if sp.packetType = PacketType.data then [AckEvent.delivered ras] else [])
  | none => (sent, [])

/-- `AckManager::process_incoming` (ack_manager.rs lines 51-108): parse
the header, mark the remote sequence received, raise
`remote_ack_sequence_num` when the incoming ack_seq is wrap-greater,
ack the packet at ack_seq itself, then walk the 32-bit ack window. -/
def AckManager.processIncoming (a : AckManager) (payload : List Nat) : IncomingResult :=
  let hdr := (StandardHeader.read payload).1
  let received2 := a.receivedPackets.insert hdr.sequence
  let remoteAck2 :=
    if sequence_greater_than hdr.ackSeq a.remoteAckSequenceNum then hdr.ackSeq
    else a.remoteAckSequenceNum
  let directRes := directAck a.sentPackets hdr.ackSeq
  let winRes := processAckWindow hdr.ackSeq hdr.ackField 1 32 directRes.1
  { state := { sequenceNumber := a.sequenceNumber,
               remoteAckSequenceNum := remoteAck2,
               sentPackets := winRes.1,
               receivedPackets := received2 },
    events := directRes.2 ++ winRes.2,
    stripped := (StandardHeader.read payload).2 }

/-- `AckManager::remote_sequence_num`: one before the received ring's
head. -/
def AckManager.remoteSequenceNum (a : AckManager) : Nat :=
  wrapSub a.receivedPackets.sequenceNum 1

/-- `AckManager::ack_bitfield`: bit i-1 set iff `remote_sequence_num - i`
is present in the received ring, for i = 1..=32. -/
def AckManager.ackBitfield (a : AckManager) : Nat :=
  (List.range 32).foldl
    (fun acc k =>
      if a.receivedPackets.seqExists (wrapSub a.remoteSequenceNum (k + 1)) then
        acc ||| (1 <<< k)
      else acc)
    0

/-- `AckManager::process_outgoing` (ack_manager.rs lines 112-139):
build the header from the current ack state, record the sent packet,
bump the local sequence number with wrap, and return header ++ payload. -/
def AckManager.processOutgoing (a : AckManager) (packetType : PacketType)
    (payload : List Nat) : AckManager × List Nat :=
  let header : StandardHeader :=
    { packetType := packetType,
      sequence := a.sequenceNumber,
      ackSeq := a.remoteSequenceNum,
      ackField := a.ackBitfield }
  ({ a with
      sentPackets := insertSent a.sentPackets a.sequenceNumber
        { id := a.sequenceNumber, packetType := packetType },
      sequenceNumber := wrapAdd a.sequenceNumber 1 },
   header.write ++ payload)

/-- Repeated sends: thread the ack state through a list of
(packet type, payload) pairs, collecting the framed packets. -/
def processOutgoingAll (a : AckManager) :
    List (PacketType × List Nat) → AckManager × List (List Nat)
  | [] => (a, [])
  | (pt, p) :: rest =>
    let r := a.processOutgoing pt p
    let rr := processOutgoingAll r.1 rest
    (rr.1, r.2 :: rr.2)

/-- Repeated receives: thread the ack state through a list of incoming
payloads, collecting each call's notification list. -/
def processTrace (a : AckManager) : List (List Nat) → AckManager × List (List AckEvent)
  | [] => (a, [])
  | p :: ps =>
    let r := a.processIncoming p
    let rest := processTrace r.state ps
    (rest.1, r.events :: rest.2)

/-- The wrap-aware 32-packet ack window: an incoming ack_seq covers
sent sequence `s` iff it equals `s` or lies ahead of it by 1..=32. -/
def inWindow (ack s : Nat) : Prop :=
  ack = s ∨ (1 ≤ wrapSub ack s ∧ wrapSub ack s ≤ 32)

instance (ack s : Nat) : Decidable (inWindow ack s) := by
  unfold inWindow; infer_instance

/-- `MTU_SIZE` from packet_writer.rs: 508 minus the 9-byte standard
header. -/
def MTU_SIZE : Nat := 508 - 9

/-- Modelled from the spec: the manager-type byte opening the event
section (`ManagerType::Event as u8`, manager_type source missing). -/
def managerTypeEvent : Nat := 1

/-- Modelled from the spec: the manager-type byte opening the entity
section (`ManagerType::Entity as u8`). -/
def managerTypeEntity : Nat := 2

/-- `PacketWriter` state (packet_writer.rs): the two working buffers and
section counts.  The Rust counts are `u8`; they are modelled as `Nat`,
and claim C9 establishes that reachable counts stay below 255, so the
model and the `u8` agree on every reachable state. -/
structure PacketWriter where
  eventWorkingBytes : List Nat
  eventCount : Nat
  entityWorkingBytes : List Nat
  entityMessageCount : Nat
deriving DecidableEq, Repr

/-- `PacketWriter::new`. -/
def PacketWriter.new : PacketWriter :=
  { eventWorkingBytes := [], eventCount := 0,
    entityWorkingBytes := [], entityMessageCount := 0 }

/-- `PacketWriter::has_bytes`. -/
def PacketWriter.hasBytes (w : PacketWriter) : Bool :=
  w.eventCount != 0 || w.entityMessageCount != 0

/-- `PacketWriter::bytes_number`. -/
def PacketWriter.bytesNumber (w : PacketWriter) : Nat :=
  w.eventWorkingBytes.length + w.entityWorkingBytes.length

/-- `PacketWriter::get_bytes`: emit each non-empty section as
manager-type byte, count byte, then the working bytes; the emitted
sections' counts are reset and their buffers drained. -/
def PacketWriter.getBytes (w : PacketWriter) : List Nat × PacketWriter :=
  ((if w.eventCount ≠ 0 then
      managerTypeEvent % 256 :: w.eventCount % 256 :: w.eventWorkingBytes
    else []) ++
   (if w.entityMessageCount ≠ 0 then
      managerTypeEntity % 256 :: w.entityMessageCount % 256 :: w.entityWorkingBytes
    else []),
   { eventCount := 0,
     eventWorkingBytes := if w.eventCount ≠ 0 then [] else w.eventWorkingBytes,
     entityMessageCount := 0,
     entityWorkingBytes :=
       if w.entityMessageCount ≠ 0 then [] else w.entityWorkingBytes })

/-- An event to be written: `event.write` produces its payload bytes and
the manifest lookup `get_gaia_id(type_id)` yields the 16-bit wire id;
both are modelled by their results. -/
structure NetEvent where
  gaiaId : Nat
  payload : List Nat
deriving DecidableEq, Repr

/-- The `event_total_bytes` assembled by `PacketWriter::write_event`:
gaia id (u16 BE), payload length written with `as u8` (hence modulo
256), then the full payload bytes. -/
def eventTotalBytes (e : NetEvent) : List Nat :=
  u16BE e.gaiaId ++ (e.payload.length % 256 :: e.payload)

/-- `PacketWriter::write_event` (packet_writer.rs lines 57-85).  Note:
when the encoded payload exceeds 255 bytes the Rust code only logs an
error and proceeds; the hypothetical size adds 2 bytes solely when this
call opens the event section. -/
def PacketWriter.writeEvent (w : PacketWriter) (e : NetEvent) :
    PacketWriter × Bool :=
  let total := eventTotalBytes e
  let hyp := w.bytesNumber + total.length + (if w.eventCount = 0 then 2 else 0)
  if hyp < MTU_SIZE then
    ({ w with eventCount := w.eventCount + 1,
              eventWorkingBytes := w.eventWorkingBytes ++ total }, true)
  else (w, false)

/-- `ServerEntityMessage` variants, carrying the bytes their polymorphic
collaborators produce: the entity payload from `write` /
`write_partial`, the state-mask bytes from `state_mask.write`, and the
manifest's gaia id. -/
inductive ServerEntityMessage where
  | create (gaiaId localKey : Nat) (payload : List Nat)
  | delete (localKey : Nat)
  | update (localKey : Nat) (stateMask : List Nat) (payload : List Nat)
deriving DecidableEq, Repr

/-- Modelled from the spec: the one-byte message-type tag written by
`write_message_type` (concrete values are assigned, not observable by
any claim). -/
def ServerEntityMessage.writeMessageType : ServerEntityMessage → Nat
  | .create _ _ _ => 0
  | .delete _ => 1
  | .update _ _ _ => 2

/-- The `entity_total_bytes` assembled by `write_entity_message`:
Create = tag, gaia id, local key, length (`as u8`), payload;
Delete = tag, local key;
Update = tag, local key, state mask, length (`as u8`), payload. -/
def entityTotalBytes : ServerEntityMessage → List Nat
  | .create g k p =>
    (ServerEntityMessage.create g k p).writeMessageType % 256 ::
      (u16BE g ++ (u16BE k ++ (p.length % 256 :: p)))
  | .delete k =>
    (ServerEntityMessage.delete k).writeMessageType % 256 :: u16BE k
  | .update k m p =>
    (ServerEntityMessage.update k m p).writeMessageType % 256 ::
      (u16BE k ++ (m ++ (p.length % 256 :: p)))

/-- `PacketWriter::write_entity_message` (packet_writer.rs lines
87-145); the oversize check again only logs, and the hypothetical size
adds 2 bytes solely when this call opens the entity section. -/
def PacketWriter.writeEntityMessage (w : PacketWriter)
    (msg : ServerEntityMessage) : PacketWriter × Bool :=
  let total := entityTotalBytes msg
  let hyp := w.bytesNumber + total.length +
    (if w.entityMessageCount = 0 then 2 else 0)
  if hyp < MTU_SIZE then
    ({ w with entityMessageCount := w.entityMessageCount + 1,
              entityWorkingBytes := w.entityWorkingBytes ++ total }, true)
  else (w, false)

/-- Writer states reachable from `PacketWriter::new` through its public
mutating operations. -/
inductive PWReachable : PacketWriter → Prop
  | new : PWReachable PacketWriter.new
  | writeEvent (w : PacketWriter) (e : NetEvent) :
      PWReachable w → PWReachable (w.writeEvent e).1
  | writeEntityMessage (w : PacketWriter) (m : ServerEntityMessage) :
      PWReachable w → PWReachable (w.writeEntityMessage m).1
  | getBytes (w : PacketWriter) : PWReachable w → PWReachable (w.getBytes).2

/-- The client's `ServerConnection`, restricted to the state its
`get_outgoing_packet` touches: the ack manager and the event manager's
outgoing queue.  Modelled from the spec: the missing `EventManager`'s
`pop_outgoing_event` takes the front of the queue and
`unpop_outgoing_event` restores the event to the front. -/
structure ServerConnection where
  ackManager : AckManager
  outgoingEvents : List NetEvent
deriving DecidableEq, Repr

/-- The pop / write / unpop loop of `ServerConnection::get_outgoing_packet`
(server_connection.rs lines 44-50): keep popping while `write_event`
accepts; on the first rejection the event is unpopped and the loop
breaks. -/
def writeEventsLoop (w : PacketWriter) : List NetEvent → PacketWriter × List NetEvent
  | [] => (w, [])
  | e :: rest =>
    let r := w.writeEvent e
    if r.2 then writeEventsLoop r.1 rest
    else (r.1, e :: rest)

/-- `ServerConnection::get_outgoing_packet` (server_connection.rs lines
39-63): when outgoing events exist, fill a fresh writer; only when the
writer holds bytes is `process_outgoing_header` (PacketType::Data)
invoked on the body; otherwise no header is produced and None is
returned. -/
def ServerConnection.getOutgoingPacket (c : ServerConnection) :
    ServerConnection × Option (List Nat) :=
  if c.outgoingEvents.isEmpty then (c, none)
  else
    let lr := writeEventsLoop PacketWriter.new c.outgoingEvents
    if lr.1.hasBytes then
      let body := lr.1.getBytes.1
      let pr := c.ackManager.processOutgoing PacketType.data body
      ({ ackManager := pr.1, outgoingEvents := lr.2 }, some pr.2)
    else
      ({ c with outgoingEvents := lr.2 }, none)

/-! ## Concrete inputs used by counterexamples and witnesses -/

/-- A 252-byte event: its item occupies 255 bytes. -/
def ce1 : NetEvent := { gaiaId := 7, payload := List.replicate 252 0 }

/-- A 240-byte event: its item occupies 243 bytes. -/
def ce2 : NetEvent := { gaiaId := 7, payload := List.replicate 240 0 }

/-- An event whose encoded payload is 256 bytes, above the 255-byte
protocol limit. -/
def bigEvent : NetEvent := { gaiaId := 3, payload := List.replicate 256 9 }

/-- An event too large to fit even in an empty packet. -/
def hugeEvent : NetEvent := { gaiaId := 1, payload := List.replicate 500 0 }

/-- An entity create message too large to fit even in an empty packet. -/
def hugeEntity : ServerEntityMessage :=
  ServerEntityMessage.create 0 0 (List.replicate 500 0)

/-- An ack state holding one in-flight Data packet at sequence 0. -/
def ackStateC1 : AckManager :=
  { AckManager.new with sentPackets := [(0, { id := 0, packetType := PacketType.data })] }

/-- An incoming packet whose ack_seq is 33 with a full ack field. -/
def packetAck33 : List Nat :=
  StandardHeader.write
    { packetType := PacketType.data, sequence := 0, ackSeq := 33, ackField := 4294967295 }

/-- An ack state holding one in-flight Heartbeat packet at sequence 4. -/
def ackStateC4 : AckManager :=
  { AckManager.new with
      sentPackets := [(4, { id := 4, packetType := PacketType.heartbeat })] }

/-- An incoming packet with ack_seq 5 and ack field bit 0 set. -/
def packetAck5 : List Nat :=
  StandardHeader.write
    { packetType := PacketType.data, sequence := 0, ackSeq := 5, ackField := 1 }

/-! ## Header serialization lemmas -/

/-- Reading a written header recovers the payload unchanged. -/
lemma read_write_stripped (h : StandardHeader) (p : List Nat) :
    (StandardHeader.read (h.write ++ p)).2 = p := rfl

/-- Reading a written header recovers the sequence number mod 2^16. -/
lemma read_write_sequence (h : StandardHeader) (p : List Nat) :
    (StandardHeader.read (h.write ++ p)).1.sequence = h.sequence % 65536 := by
  show h.sequence / 256 % 256 % 256 * 256 + h.sequence % 256 % 256 = h.sequence % 65536
  omega

/-! ## Claim theorems: C5, C6, C7, C8 -/

/-- Claim C5: for every sequence of n calls to process_outgoing starting
from local sequence number s0, the headers produced carry the local
sequence numbers s0, s0+1, ..., s0+n-1 modulo 2^16, regardless of packet
type or payload. -/
theorem C5_sequence_numbers (ws : List (PacketType × List Nat)) (a : AckManager)
    (i : Nat) (hi : i < ws.length) :
    (StandardHeader.read (((processOutgoingAll a ws).2).getD i [])).1.sequence
      = (a.sequenceNumber + i) % 65536 := by
  induction ws generalizing a i with
  | nil => simp at hi
  | cons hd tl ih =>
    match i with
    | 0 =>
      show (StandardHeader.read ((a.processOutgoing hd.1 hd.2).2)).1.sequence = _
      have : (a.processOutgoing hd.1 hd.2).2 =
          StandardHeader.write
            { packetType := hd.1, sequence := a.sequenceNumber,
              ackSeq := a.remoteSequenceNum, ackField := a.ackBitfield } ++ hd.2 := rfl
      rw [this, read_write_sequence]
      simp
    | i + 1 =>
      have hi' : i < tl.length := by simpa using hi
      have := ih (a.processOutgoing hd.1 hd.2).1 i hi'
      have hseq : ((a.processOutgoing hd.1 hd.2).1).sequenceNumber
          = (a.sequenceNumber + 1) % 65536 := rfl
      rw [hseq] at this
      calc (StandardHeader.read
              (((processOutgoingAll a (hd :: tl)).2).getD (i + 1) [])).1.sequence
          = (StandardHeader.read
              (((processOutgoingAll (a.processOutgoing hd.1 hd.2).1 tl).2).getD i [])).1.sequence := rfl
        _ = ((a.sequenceNumber + 1) % 65536 + i) % 65536 := this
        _ = (a.sequenceNumber + (i + 1)) % 65536 := by omega

/-- Witness for C5 at a concrete input: a single Data send from a fresh
ack manager carries sequence number 0. -/
theorem C5_witness :
    0 < [(PacketType.data, ([] : List Nat))].length ∧
    (StandardHeader.read
        (((processOutgoingAll AckManager.new [(PacketType.data, [])]).2).getD 0 [])).1.sequence
      = (AckManager.new.sequenceNumber + 0) % 65536 :=
  ⟨by decide, C5_sequence_numbers [(PacketType.data, [])] AckManager.new 0 (by decide)⟩

/-- Claim C6: framing a payload with process_outgoing and then stripping
it with process_incoming is the identity on the payload. -/
theorem C6_roundtrip (a b : AckManager) (pt : PacketType) (p : List Nat) :
    (b.processIncoming ((a.processOutgoing pt p).2)).stripped = p := by
  show (StandardHeader.read ((a.processOutgoing pt p).2)).2 = p
  exact read_write_stripped _ p

/-- Claim C7: across every call to process_incoming,
remote_ack_sequence_num is monotonically non-decreasing under
wrap-around comparison: it is reassigned (to the incoming ack_seq) only
when that ack_seq is wrap-greater than its current value, and is
unchanged otherwise. -/
theorem C7_remote_ack_monotone (a : AckManager) (p : List Nat) :
    ((a.processIncoming p).state.remoteAckSequenceNum = a.remoteAckSequenceNum ∧
      sequence_greater_than (headerAckSeq p) a.remoteAckSequenceNum = false) ∨
    (sequence_greater_than (headerAckSeq p) a.remoteAckSequenceNum = true ∧
      (a.processIncoming p).state.remoteAckSequenceNum = headerAckSeq p) := by
  have hst : (a.processIncoming p).state.remoteAckSequenceNum =
      (if sequence_greater_than (StandardHeader.read p).1.ackSeq a.remoteAckSequenceNum
       then (StandardHeader.read p).1.ackSeq else a.remoteAckSequenceNum) := rfl
  cases hb : sequence_greater_than (headerAckSeq p) a.remoteAckSequenceNum with
  | false =>
    left
    refine ⟨?_, rfl⟩
    rw [hst]
    simp only [headerAckSeq] at hb
    simp [hb]
  | true =>
    right
    refine ⟨rfl, ?_⟩
    rw [hst]
    simp only [headerAckSeq] at hb
    simp [hb, headerAckSeq]

/-- Claim C8: every refused write_event / write_entity_message (the
hypothetical size was not strictly below MTU_SIZE) leaves the writer
state, and hence bytes_number, the section counts and has_bytes,
unchanged. -/
theorem C8_failed_write_frame (w : PacketWriter) (e : NetEvent)
    (m : ServerEntityMessage) :
    ((w.writeEvent e).2 = false → (w.writeEvent e).1 = w) ∧
    ((w.writeEntityMessage m).2 = false → (w.writeEntityMessage m).1 = w) := by
  constructor
  · intro h
    unfold PacketWriter.writeEvent at h ⊢
    by_cases hc : w.bytesNumber + (eventTotalBytes e).length +
        (if w.eventCount = 0 then 2 else 0) < MTU_SIZE
    · simp [hc] at h
    · simp [hc]
  · intro h
    unfold PacketWriter.writeEntityMessage at h ⊢
    by_cases hc : w.bytesNumber + (entityTotalBytes m).length +
        (if w.entityMessageCount = 0 then 2 else 0) < MTU_SIZE
    · simp [hc] at h
    · simp [hc]

/-- Witness for C8 at concrete inputs: an event and an entity message
that are refused on a fresh writer leave it equal to the fresh writer. -/
theorem C8_witness :
    ((PacketWriter.new.writeEvent hugeEvent).1 = PacketWriter.new) ∧
    ((PacketWriter.new.writeEntityMessage hugeEntity).1 = PacketWriter.new) :=
  ⟨(C8_failed_write_frame PacketWriter.new hugeEvent hugeEntity).1 (by decide),
   (C8_failed_write_frame PacketWriter.new hugeEvent hugeEntity).2 (by decide)⟩

/-! ## Counterexamples and code-bug evaluations -/

/-- Claim C1 counterexample: with a sent Data packet at sequence 0, the
first (and only) incoming packet has ack_seq 33, which is wrap-aware at
least 0 + 32, yet its processing emits neither delivered(0) nor
dropped(0), and the entry is still outstanding afterwards: the required
emission did not happen by the claimed deadline. -/
theorem C1_counterexample :
    sequence_greater_than 33 (wrapAdd 0 32) = true ∧
    eventsFor 0 ((ackStateC1.processIncoming packetAck33).events) = [] ∧
    lookupSent ((ackStateC1.processIncoming packetAck33).state).sentPackets 0
      = some { id := 0, packetType := PacketType.data } := by decide

/-- Claim C2 counterexample: after accepting a 252-byte event and a
240-byte event, has_bytes is true but get_bytes returns a 500-byte body,
which is not strictly below MTU_SIZE = 499: the 2-byte section header is
not charged against the budget once the section is open. -/
theorem C2_counterexample :
    (((PacketWriter.new.writeEvent ce1).1.writeEvent ce2).1.hasBytes = true) ∧
    ¬ ((((PacketWriter.new.writeEvent ce1).1.writeEvent ce2).1.getBytes.1.length)
        < MTU_SIZE) := by decide

/-- Claim C3, behaviour of the code at the failing input: an event with
a 256-byte payload is accepted by write_event (which only logs the
oversize error): the call returns true, the event count becomes 1, and
the length byte is written truncated to 256 mod 256 = 0. -/
theorem C3_code_behavior :
    bigEvent.payload.length > 255 ∧
    (PacketWriter.new.writeEvent bigEvent).2 = true ∧
    (PacketWriter.new.writeEvent bigEvent).1.eventCount = 1 ∧
    (PacketWriter.new.writeEvent bigEvent).1.eventWorkingBytes.getD 2 999 = 0 := by
  decide

/-- Claim C4 counterexample: a sent Heartbeat packet at sequence 4 is
covered by an incoming ack_seq 5 with ack-field bit 0 set (i = 1), so
the claim requires delivered(4); the code removes the entry but emits
nothing, because notifications are emitted only for Data packets. -/
theorem C4_counterexample :
    lookupSent ackStateC4.sentPackets (wrapSub (headerAckSeq packetAck5) 1)
      = some { id := 4, packetType := PacketType.heartbeat } ∧
    Nat.testBit (headerAckField packetAck5) 0 = true ∧
    AckEvent.delivered 4 ∉ (ackStateC4.processIncoming packetAck5).events ∧
    AckEvent.dropped 4 ∉ (ackStateC4.processIncoming packetAck5).events ∧
    lookupSent ((ackStateC4.processIncoming packetAck5).state).sentPackets 4
      = none := by decide

/-! ## PacketWriter invariants -/

/-- The writer invariant: the accumulated body stays at most 498 bytes
(the MTU guard is strict at 499), closed sections have empty buffers,
and every accepted item contributed at least 3 bytes to its section. -/
def PWInv (w : PacketWriter) : Prop :=
  w.bytesNumber ≤ 498 ∧
  (w.eventCount = 0 → w.eventWorkingBytes = []) ∧
  (w.entityMessageCount = 0 → w.entityWorkingBytes = []) ∧
  3 * w.eventCount ≤ w.eventWorkingBytes.length ∧
  3 * w.entityMessageCount ≤ w.entityWorkingBytes.length

lemma eventTotalBytes_length (e : NetEvent) :
    (eventTotalBytes e).length = 3 + e.payload.length := by
  simp [eventTotalBytes, u16BE]
  omega

lemma entityTotalBytes_length_ge (m : ServerEntityMessage) :
    3 ≤ (entityTotalBytes m).length := by
  cases m <;> simp [entityTotalBytes, u16BE]

lemma pwInv_new : PWInv PacketWriter.new := by
  refine ⟨?_, ?_, ?_, ?_, ?_⟩ <;>
    simp [PacketWriter.new, PacketWriter.bytesNumber]

lemma writeEvent_eq_accept (w : PacketWriter) (e : NetEvent)
    (hc : w.bytesNumber + (eventTotalBytes e).length +
      (if w.eventCount = 0 then 2 else 0) < MTU_SIZE) :
    w.writeEvent e =
      ({ w with eventCount := w.eventCount + 1,
                eventWorkingBytes := w.eventWorkingBytes ++ eventTotalBytes e },
       true) := by
  unfold PacketWriter.writeEvent
  simp [hc]

lemma writeEvent_eq_reject (w : PacketWriter) (e : NetEvent)
    (hc : ¬ (w.bytesNumber + (eventTotalBytes e).length +
      (if w.eventCount = 0 then 2 else 0) < MTU_SIZE)) :
    w.writeEvent e = (w, false) := by
  unfold PacketWriter.writeEvent
  simp [hc]

lemma writeEntityMessage_eq_accept (w : PacketWriter) (m : ServerEntityMessage)
    (hc : w.bytesNumber + (entityTotalBytes m).length +
      (if w.entityMessageCount = 0 then 2 else 0) < MTU_SIZE) :
    w.writeEntityMessage m =
      ({ w with entityMessageCount := w.entityMessageCount + 1,
                entityWorkingBytes := w.entityWorkingBytes ++ entityTotalBytes m },
       true) := by
  unfold PacketWriter.writeEntityMessage
  simp [hc]

lemma writeEntityMessage_eq_reject (w : PacketWriter) (m : ServerEntityMessage)
    (hc : ¬ (w.bytesNumber + (entityTotalBytes m).length +
      (if w.entityMessageCount = 0 then 2 else 0) < MTU_SIZE)) :
    w.writeEntityMessage m = (w, false) := by
  unfold PacketWriter.writeEntityMessage
  simp [hc]

lemma pwInv_writeEvent (w : PacketWriter) (e : NetEvent) (h : PWInv w) :
    PWInv (w.writeEvent e).1 := by
  obtain ⟨h1, h2, h3, h4, h5⟩ := h
  by_cases hc : w.bytesNumber + (eventTotalBytes e).length +
      (if w.eventCount = 0 then 2 else 0) < MTU_SIZE
  · rw [writeEvent_eq_accept w e hc]
    have hc' : w.eventWorkingBytes.length + w.entityWorkingBytes.length +
        (3 + e.payload.length) ≤ 498 := by
      unfold PacketWriter.bytesNumber MTU_SIZE at hc
      rw [eventTotalBytes_length] at hc
      by_cases h0 : w.eventCount = 0 <;> simp [h0] at hc <;> omega
    refine ⟨?_, ?_, ?_, ?_, ?_⟩
    · show (w.eventWorkingBytes ++ eventTotalBytes e).length +
        w.entityWorkingBytes.length ≤ 498
      rw [List.length_append, eventTotalBytes_length]
      omega
    · intro h0
      exact absurd h0 (Nat.succ_ne_zero _)
    · exact h3
    · show 3 * (w.eventCount + 1) ≤ (w.eventWorkingBytes ++ eventTotalBytes e).length
      rw [List.length_append, eventTotalBytes_length]
      omega
    · exact h5
  · rw [writeEvent_eq_reject w e hc]
    exact ⟨h1, h2, h3, h4, h5⟩

lemma pwInv_writeEntityMessage (w : PacketWriter) (m : ServerEntityMessage)
    (h : PWInv w) : PWInv (w.writeEntityMessage m).1 := by
  obtain ⟨h1, h2, h3, h4, h5⟩ := h
  have hm3 : 3 ≤ (entityTotalBytes m).length := entityTotalBytes_length_ge m
  by_cases hc : w.bytesNumber + (entityTotalBytes m).length +
      (if w.entityMessageCount = 0 then 2 else 0) < MTU_SIZE
  · rw [writeEntityMessage_eq_accept w m hc]
    have hc' : w.eventWorkingBytes.length + w.entityWorkingBytes.length +
        (entityTotalBytes m).length ≤ 498 := by
      unfold PacketWriter.bytesNumber MTU_SIZE at hc
      by_cases h0 : w.entityMessageCount = 0 <;> simp [h0] at hc <;> omega
    unfold PacketWriter.bytesNumber at h1
    refine ⟨?_, ?_, ?_, ?_, ?_⟩
    · show w.eventWorkingBytes.length +
        (w.entityWorkingBytes ++ entityTotalBytes m).length ≤ 498
      rw [List.length_append]
      omega
    · exact h2
    · intro h0
      exact absurd h0 (Nat.succ_ne_zero _)
    · exact h4
    · show 3 * (w.entityMessageCount + 1) ≤
        (w.entityWorkingBytes ++ entityTotalBytes m).length
      rw [List.length_append]
      omega
  · rw [writeEntityMessage_eq_reject w m hc]
    exact ⟨h1, h2, h3, h4, h5⟩

lemma pwInv_getBytes (w : PacketWriter) (h : PWInv w) : PWInv (w.getBytes).2 := by
  obtain ⟨h1, h2, h3, h4, h5⟩ := h
  have hev : (if w.eventCount ≠ 0 then [] else w.eventWorkingBytes) = ([] : List Nat) := by
    by_cases h0 : w.eventCount = 0
    · simp [h0, h2 h0]
    · simp [h0]
  have hen : (if w.entityMessageCount ≠ 0 then [] else w.entityWorkingBytes)
      = ([] : List Nat) := by
    by_cases h0 : w.entityMessageCount = 0
    · simp [h0, h3 h0]
    · simp [h0]
  unfold PacketWriter.getBytes
  refine ⟨?_, ?_, ?_, ?_, ?_⟩ <;>
    simp [PacketWriter.bytesNumber, hev, hen]

lemma pwInv_of_reachable (w : PacketWriter) (h : PWReachable w) : PWInv w := by
  induction h with
  | new => exact pwInv_new
  | writeEvent w e _ ih => exact pwInv_writeEvent w e ih
  | writeEntityMessage w m _ ih => exact pwInv_writeEntityMessage w m ih
  | getBytes w _ ih => exact pwInv_getBytes w ih

/-- Claim C2, amended: for every reachable PacketWriter state with
has_bytes() = true, the body returned by get_bytes() is at most
MTU_BODY + 3 = 502 bytes (the 2-byte section headers escape the MTU
accounting once a section is open, so the strict MTU_BODY bound of the
claim fails; 502 is tight over both-section states). -/
theorem C2_amended_bound (w : PacketWriter) (hr : PWReachable w)
    (_hb : w.hasBytes = true) :
    (w.getBytes).1.length ≤ 502 := by
  obtain ⟨h1, h2, h3, h4, h5⟩ := pwInv_of_reachable w hr
  unfold PacketWriter.bytesNumber at h1
  unfold PacketWriter.getBytes
  by_cases h0 : w.eventCount = 0 <;> by_cases h0' : w.entityMessageCount = 0 <;>
    simp [h0, h0'] <;> omega

/-- Witness for C2 (amended) at a concrete reachable state: one
accepted 240-byte event. -/
theorem C2_witness :
    ((PacketWriter.new.writeEvent ce2).1.getBytes).1.length ≤ 502 :=
  C2_amended_bound _ (PWReachable.writeEvent PacketWriter.new ce2 PWReachable.new)
    (by decide)

/-- A three-byte event used by the C9 witness. -/
def c9Event : NetEvent := { gaiaId := 2, payload := [1, 2, 3] }

/-- Claim C9: on every reachable writer state the section counts are
strictly below 255, so the u8 increments performed on acceptance can
never overflow: every accepted item occupies at least 3 bytes and the
accumulated body stays at most 498 bytes, capping each count at 166. -/
theorem C9_counts_bounded (w : PacketWriter) (hr : PWReachable w) :
    w.eventCount < 255 ∧ w.entityMessageCount < 255 := by
  obtain ⟨h1, h2, h3, h4, h5⟩ := pwInv_of_reachable w hr
  unfold PacketWriter.bytesNumber at h1
  omega

/-- Witness for C9 at a concrete reachable state. -/
theorem C9_witness :
    (PacketWriter.new.writeEvent c9Event).1.eventCount < 255 ∧
    (PacketWriter.new.writeEvent c9Event).1.entityMessageCount < 255 :=
  C9_counts_bounded _ (PWReachable.writeEvent PacketWriter.new c9Event PWReachable.new)

/-! ## ServerConnection: get_outgoing_packet frame property -/

lemma writeEvent_rejected_eq (w : PacketWriter) (e : NetEvent)
    (h : (w.writeEvent e).2 = false) : (w.writeEvent e).1 = w := by
  by_cases hc : w.bytesNumber + (eventTotalBytes e).length +
      (if w.eventCount = 0 then 2 else 0) < MTU_SIZE
  · rw [writeEvent_eq_accept w e hc] at h
    simp at h
  · rw [writeEvent_eq_reject w e hc]

lemma writeEvent_count_mono (w : PacketWriter) (e : NetEvent) :
    w.eventCount ≤ (w.writeEvent e).1.eventCount := by
  by_cases hc : w.bytesNumber + (eventTotalBytes e).length +
      (if w.eventCount = 0 then 2 else 0) < MTU_SIZE
  · rw [writeEvent_eq_accept w e hc]
    show w.eventCount ≤ w.eventCount + 1
    omega
  · rw [writeEvent_eq_reject w e hc]

lemma writeEvent_accepted_count (w : PacketWriter) (e : NetEvent)
    (h : (w.writeEvent e).2 = true) :
    (w.writeEvent e).1.eventCount = w.eventCount + 1 := by
  by_cases hc : w.bytesNumber + (eventTotalBytes e).length +
      (if w.eventCount = 0 then 2 else 0) < MTU_SIZE
  · rw [writeEvent_eq_accept w e hc]
  · rw [writeEvent_eq_reject w e hc] at h
    simp at h

lemma writeEventsLoop_count_le (q : List NetEvent) :
    ∀ w : PacketWriter, w.eventCount ≤ (writeEventsLoop w q).1.eventCount := by
  induction q with
  | nil => intro w; exact Nat.le_refl _
  | cons e rest ih =>
    intro w
    unfold writeEventsLoop
    by_cases hok : (w.writeEvent e).2 = true
    · simp only [hok, if_pos]
      exact Nat.le_trans (writeEvent_count_mono w e) (ih _)
    · simp only [Bool.not_eq_true] at hok
      simp only [hok]
      show w.eventCount ≤ (w.writeEvent e).1.eventCount
      exact writeEvent_count_mono w e

lemma writeEventsLoop_no_bytes (q : List NetEvent) :
    ∀ w : PacketWriter, (writeEventsLoop w q).1.hasBytes = false →
      (writeEventsLoop w q).2 = q ∧ (writeEventsLoop w q).1 = w := by
  induction q with
  | nil => intro w _; exact ⟨rfl, rfl⟩
  | cons e rest ih =>
    intro w h
    unfold writeEventsLoop at h ⊢
    by_cases hok : (w.writeEvent e).2 = true
    · exfalso
      simp only [hok, if_pos] at h
      have h1 := writeEvent_accepted_count w e hok
      have h2 := writeEventsLoop_count_le rest (w.writeEvent e).1
      unfold PacketWriter.hasBytes at h
      simp only [Bool.or_eq_false_iff, bne_eq_false_iff_eq] at h
      omega
    · simp only [Bool.not_eq_true] at hok
      simp only [hok] at h ⊢
      exact ⟨rfl, writeEvent_rejected_eq w e hok⟩

/-- Claim C10: whenever ServerConnection::get_outgoing_packet returns
None (no outgoing events, or the first popped event was rejected and
restored via unpop), no header is produced: the connection state — the
AckManager (local sequence number and sent_packets included) and the
outgoing event queue, the rejected event still at its front — is
unchanged. -/
theorem C10_none_frame (c : ServerConnection)
    (h : (c.getOutgoingPacket).2 = none) :
    (c.getOutgoingPacket).1 = c := by
  unfold ServerConnection.getOutgoingPacket at h ⊢
  by_cases he : c.outgoingEvents.isEmpty
  · simp [he]
  · simp only [he, if_neg, Bool.false_eq_true, not_false_iff, if_false] at h ⊢
    by_cases hb : (writeEventsLoop PacketWriter.new c.outgoingEvents).1.hasBytes = true
    · simp [hb] at h
    · simp only [Bool.not_eq_true] at hb
      obtain ⟨hq, _⟩ := writeEventsLoop_no_bytes c.outgoingEvents PacketWriter.new hb
      simp [hb, hq]

/-! ## Wrap-around arithmetic and sent-map lemmas -/

lemma wrapSub_lt (a b : Nat) : wrapSub a b < 65536 :=
  Nat.mod_lt _ (by norm_num)

lemma wrapSub_inj (a : Nat) {i j : Nat} (hi : i < 65536) (hj : j < 65536)
    (h : wrapSub a i = wrapSub a j) : i = j := by
  unfold wrapSub at h
  omega

lemma wrapSub_wrapSub (a s : Nat) (hs : s < 65536) :
    wrapSub a (wrapSub a s) = s := by
  unfold wrapSub
  omega

lemma wrapSub_zero_iff (a s : Nat) (ha : a < 65536) (hs : s < 65536) :
    wrapSub a s = 0 ↔ a = s := by
  unfold wrapSub
  omega

lemma lookupSent_removeSent (m : List (Nat × SentPacket)) (k s : Nat) :
    lookupSent (removeSent m k) s = if s = k then none else lookupSent m s := by
  induction m with
  | nil =>
    simp only [removeSent, lookupSent]
    split <;> rfl
  | cons kv rest ih =>
    obtain ⟨k0, v⟩ := kv
    simp only [removeSent]
    by_cases h1 : k0 = k
    · rw [if_pos h1, ih]
      by_cases h2 : s = k
      · rw [if_pos h2, if_pos h2]
      · rw [if_neg h2, if_neg h2]
        show lookupSent rest s = if k0 = s then some v else lookupSent rest s
        rw [if_neg (by omega)]
    · rw [if_neg h1]
      show (if k0 = s then some v else lookupSent (removeSent rest k) s) = _
      by_cases h2 : k0 = s
      · rw [if_pos h2, if_neg (show ¬ s = k by omega)]
        show some v = if k0 = s then some v else lookupSent rest s
        rw [if_pos h2]
      · rw [if_neg h2, ih]
        by_cases h3 : s = k
        · rw [if_pos h3, if_pos h3]
        · rw [if_neg h3, if_neg h3]
          show lookupSent rest s = if k0 = s then some v else lookupSent rest s
          rw [if_neg h2]

/-! ## Events-for-a-sequence lemmas -/

lemma eventsFor_nil (s : Nat) : eventsFor s [] = [] := rfl

lemma eventsFor_append (s : Nat) (l1 l2 : List AckEvent) :
    eventsFor s (l1 ++ l2) = eventsFor s l1 ++ eventsFor s l2 := by
  simp [eventsFor]

lemma eventsFor_iter_ne (s t field : Nat) (sp : SentPacket) (h : t ≠ s) :
    eventsFor s
      (if sp.packetType = PacketType.data then
        (if field % 2 = 1 then [AckEvent.delivered t] else [AckEvent.dropped t])
       else []) = [] := by
  split
  · split <;> simp [eventsFor, isForSeq, h]
  · rfl

lemma eventsFor_iter_self (s field : Nat) (sp : SentPacket) :
    eventsFor s
      (if sp.packetType = PacketType.data then
        (if field % 2 = 1 then [AckEvent.delivered s] else [AckEvent.dropped s])
       else []) =
      (if sp.packetType = PacketType.data then
        (if field % 2 = 1 then [AckEvent.delivered s] else [AckEvent.dropped s])
       else []) := by
  split
  · split <;> simp [eventsFor, isForSeq]
  · rfl

lemma eventsFor_direct_ne (s t : Nat) (sp : SentPacket) (h : t ≠ s) :
    eventsFor s
      (if sp.packetType = PacketType.data then [AckEvent.delivered t] else []) = [] := by
  split <;> simp [eventsFor, isForSeq, h]

/-! ## Ack-window lemmas -/

lemma processAckWindow_succ (ackSeq field i0 fuel : Nat)
    (sent : List (Nat × SentPacket)) :
    processAckWindow ackSeq field i0 (fuel + 1) sent =
      match lookupSent sent (wrapSub ackSeq i0) with
      | some sp =>
        ((processAckWindow ackSeq (field / 2) (i0 + 1) fuel
            (removeSent sent (wrapSub ackSeq i0))).1,
         (if sp.packetType = PacketType.data then
            (if field % 2 = 1 then [AckEvent.delivered (wrapSub ackSeq i0)]
             else [AckEvent.dropped (wrapSub ackSeq i0)])
          else []) ++
         (processAckWindow ackSeq (field / 2) (i0 + 1) fuel
            (removeSent sent (wrapSub ackSeq i0))).2)
      | none => processAckWindow ackSeq (field / 2) (i0 + 1) fuel sent := rfl

lemma processAckWindow_succ_of_some (ackSeq field i0 fuel : Nat)
    (sent : List (Nat × SentPacket)) (sp : SentPacket)
    (h : lookupSent sent (wrapSub ackSeq i0) = some sp) :
    processAckWindow ackSeq field i0 (fuel + 1) sent =
      ((processAckWindow ackSeq (field / 2) (i0 + 1) fuel
          (removeSent sent (wrapSub ackSeq i0))).1,
       (if sp.packetType = PacketType.data then
          (if field % 2 = 1 then [AckEvent.delivered (wrapSub ackSeq i0)]
           else [AckEvent.dropped (wrapSub ackSeq i0)])
        else []) ++
       (processAckWindow ackSeq (field / 2) (i0 + 1) fuel
          (removeSent sent (wrapSub ackSeq i0))).2) := by
  rw [processAckWindow_succ, h]

lemma processAckWindow_succ_of_none (ackSeq field i0 fuel : Nat)
    (sent : List (Nat × SentPacket))
    (h : lookupSent sent (wrapSub ackSeq i0) = none) :
    processAckWindow ackSeq field i0 (fuel + 1) sent =
      processAckWindow ackSeq (field / 2) (i0 + 1) fuel sent := by
  rw [processAckWindow_succ, h]

lemma processAckWindow_absent (ackSeq : Nat) :
    ∀ (fuel i0 field : Nat) (sent : List (Nat × SentPacket)) (s : Nat),
      lookupSent sent s = none →
      lookupSent (processAckWindow ackSeq field i0 fuel sent).1 s = none ∧
      eventsFor s (processAckWindow ackSeq field i0 fuel sent).2 = [] := by
  intro fuel
  induction fuel with
  | zero => intro i0 field sent s h; exact ⟨h, rfl⟩
  | succ fuel ih =>
    intro i0 field sent s h
    rcases hlk : lookupSent sent (wrapSub ackSeq i0) with _ | sp
    · rw [processAckWindow_succ_of_none ackSeq field i0 fuel sent hlk]
      exact ih (i0 + 1) (field / 2) sent s h
    · rw [processAckWindow_succ_of_some ackSeq field i0 fuel sent sp hlk]
      have hne : wrapSub ackSeq i0 ≠ s := by
        intro he
        rw [he, h] at hlk
        exact Option.noConfusion hlk
      have h' : lookupSent (removeSent sent (wrapSub ackSeq i0)) s = none := by
        rw [lookupSent_removeSent]
        by_cases h2 : s = wrapSub ackSeq i0
        · rw [if_pos h2]
        · rw [if_neg h2]; exact h
      obtain ⟨ih1, ih2⟩ := ih (i0 + 1) (field / 2) (removeSent sent (wrapSub ackSeq i0)) s h'
      refine ⟨ih1, ?_⟩
      show eventsFor s (_ ++ _) = []
      rw [eventsFor_append, eventsFor_iter_ne s _ field sp hne, ih2]
      rfl

lemma processAckWindow_outside (ackSeq : Nat) :
    ∀ (fuel i0 field : Nat) (sent : List (Nat × SentPacket)) (s : Nat),
      (∀ j, i0 ≤ j → j < i0 + fuel → wrapSub ackSeq j ≠ s) →
      lookupSent (processAckWindow ackSeq field i0 fuel sent).1 s = lookupSent sent s ∧
      eventsFor s (processAckWindow ackSeq field i0 fuel sent).2 = [] := by
  intro fuel
  induction fuel with
  | zero => intro i0 field sent s _; exact ⟨rfl, rfl⟩
  | succ fuel ih =>
    intro i0 field sent s h
    have hne : wrapSub ackSeq i0 ≠ s := h i0 (Nat.le_refl _) (by omega)
    have h' : ∀ j, i0 + 1 ≤ j → j < (i0 + 1) + fuel → wrapSub ackSeq j ≠ s := by
      intro j hj1 hj2
      exact h j (by omega) (by omega)
    rcases hlk : lookupSent sent (wrapSub ackSeq i0) with _ | sp
    · rw [processAckWindow_succ_of_none ackSeq field i0 fuel sent hlk]
      exact ih (i0 + 1) (field / 2) sent s h'
    · rw [processAckWindow_succ_of_some ackSeq field i0 fuel sent sp hlk]
      obtain ⟨ih1, ih2⟩ := ih (i0 + 1) (field / 2) (removeSent sent (wrapSub ackSeq i0)) s h'
      constructor
      · rw [ih1, lookupSent_removeSent, if_neg (show ¬ s = wrapSub ackSeq i0 by omega)]
      · show eventsFor s (_ ++ _) = []
        rw [eventsFor_append, eventsFor_iter_ne s _ field sp hne, ih2]
        rfl

lemma processAckWindow_present (ackSeq : Nat) :
    ∀ (fuel i0 field : Nat) (sent : List (Nat × SentPacket)) (j : Nat) (sp : SentPacket),
      i0 ≤ j → j < i0 + fuel → i0 + fuel ≤ 65536 →
      lookupSent sent (wrapSub ackSeq j) = some sp →
      lookupSent (processAckWindow ackSeq field i0 fuel sent).1 (wrapSub ackSeq j) = none ∧
      eventsFor (wrapSub ackSeq j) (processAckWindow ackSeq field i0 fuel sent).2 =
        (if sp.packetType = PacketType.data then
          (if Nat.testBit field (j - i0) then [AckEvent.delivered (wrapSub ackSeq j)]
           else [AckEvent.dropped (wrapSub ackSeq j)])
         else []) := by
  intro fuel
  induction fuel with
  | zero => intro i0 field sent j sp hj1 hj2 _ _; omega
  | succ fuel ih =>
    intro i0 field sent j sp hj1 hj2 hcap hlk
    by_cases hji : j = i0
    · subst hji
      rw [processAckWindow_succ_of_some ackSeq field j fuel sent sp hlk]
      have h' : lookupSent (removeSent sent (wrapSub ackSeq j)) (wrapSub ackSeq j) = none := by
        rw [lookupSent_removeSent, if_pos rfl]
      obtain ⟨ha1, ha2⟩ := processAckWindow_absent ackSeq fuel (j + 1) (field / 2)
        (removeSent sent (wrapSub ackSeq j)) (wrapSub ackSeq j) h'
      refine ⟨ha1, ?_⟩
      show eventsFor _ (_ ++ _) = _
      rw [eventsFor_append, eventsFor_iter_self, ha2, List.append_nil]
      have hj0 : j - j = 0 := Nat.sub_self j
      rw [hj0, Nat.testBit_zero]
      by_cases hm : field % 2 = 1 <;> simp [hm]
    · have hij : i0 < j := by omega
      have hne : wrapSub ackSeq i0 ≠ wrapSub ackSeq j := by
        intro he
        exact hji (wrapSub_inj ackSeq (by omega) (by omega) he).symm
      have hbit : j - i0 = (j - (i0 + 1)) + 1 := by omega
      rcases hlk0 : lookupSent sent (wrapSub ackSeq i0) with _ | sp0
      · rw [processAckWindow_succ_of_none ackSeq field i0 fuel sent hlk0]
        obtain ⟨ih1, ih2⟩ := ih (i0 + 1) (field / 2) sent j sp
          (by omega) (by omega) (by omega) hlk
        refine ⟨ih1, ?_⟩
        rw [ih2, hbit, Nat.testBit_add_one]
      · rw [processAckWindow_succ_of_some ackSeq field i0 fuel sent sp0 hlk0]
        have hlk' : lookupSent (removeSent sent (wrapSub ackSeq i0)) (wrapSub ackSeq j)
            = some sp := by
          rw [lookupSent_removeSent, if_neg (show ¬ wrapSub ackSeq j = wrapSub ackSeq i0 by
            intro he; exact hne he.symm)]
          exact hlk
        obtain ⟨ih1, ih2⟩ := ih (i0 + 1) (field / 2)
          (removeSent sent (wrapSub ackSeq i0)) j sp (by omega) (by omega) (by omega) hlk'
        refine ⟨ih1, ?_⟩
        show eventsFor _ (_ ++ _) = _
        rw [eventsFor_append, eventsFor_iter_ne _ _ field sp0 hne, ih2, hbit,
          Nat.testBit_add_one]
        rfl

/-! ## Per-call characterization of process_incoming -/

lemma directAck_of_none (sent : List (Nat × SentPacket)) (ras : Nat)
    (h : lookupSent sent ras = none) : directAck sent ras = (sent, []) := by
  unfold directAck
  rw [h]

lemma directAck_of_some (sent : List (Nat × SentPacket)) (ras : Nat) (sp : SentPacket)
    (h : lookupSent sent ras = some sp) :
    directAck sent ras =
      (removeSent sent ras,
       if sp.packetType = PacketType.data then [AckEvent.delivered ras] else []) := by
  unfold directAck
  rw [h]

lemma processIncoming_sent_eq (a : AckManager) (p : List Nat) :
    (a.processIncoming p).state.sentPackets =
      (processAckWindow (headerAckSeq p) (headerAckField p) 1 32
        (directAck a.sentPackets (headerAckSeq p)).1).1 := rfl

lemma processIncoming_events_eq (a : AckManager) (p : List Nat) :
    (a.processIncoming p).events =
      (directAck a.sentPackets (headerAckSeq p)).2 ++
      (processAckWindow (headerAckSeq p) (headerAckField p) 1 32
        (directAck a.sentPackets (headerAckSeq p)).1).2 := rfl

lemma headerAckSeq_lt (p : List Nat) : headerAckSeq p < 65536 := by
  show p.getD 3 0 % 256 * 256 + p.getD 4 0 % 256 < 65536
  omega

/-- An absent sent sequence stays absent through process_incoming, and
no event is emitted for it. -/
lemma processIncoming_absent (a : AckManager) (p : List Nat) (s : Nat)
    (h : lookupSent a.sentPackets s = none) :
    lookupSent (a.processIncoming p).state.sentPackets s = none ∧
    eventsFor s (a.processIncoming p).events = [] := by
  rw [processIncoming_sent_eq, processIncoming_events_eq]
  rcases hd : lookupSent a.sentPackets (headerAckSeq p) with _ | sp
  · rw [directAck_of_none _ _ hd]
    obtain ⟨w1, w2⟩ := processAckWindow_absent (headerAckSeq p) 32 1 (headerAckField p)
      a.sentPackets s h
    refine ⟨w1, ?_⟩
    rw [eventsFor_append, w2]
    rfl
  · rw [directAck_of_some _ _ sp hd]
    have hne : headerAckSeq p ≠ s := by
      intro he
      rw [he, h] at hd
      exact Option.noConfusion hd
    have h' : lookupSent (removeSent a.sentPackets (headerAckSeq p)) s = none := by
      rw [lookupSent_removeSent]
      by_cases h2 : s = headerAckSeq p
      · rw [if_pos h2]
      · rw [if_neg h2]; exact h
    obtain ⟨w1, w2⟩ := processAckWindow_absent (headerAckSeq p) 32 1 (headerAckField p)
      (removeSent a.sentPackets (headerAckSeq p)) s h'
    refine ⟨w1, ?_⟩
    rw [eventsFor_append, w2, eventsFor_direct_ne s _ sp hne]
    rfl

/-- A present sent sequence covered by the incoming ack window is
removed, and exactly the notification dictated by the direct clause or
by the matching ack-field bit is emitted for it. -/
lemma processIncoming_present (a : AckManager) (p : List Nat) (s : Nat) (sp : SentPacket)
    (hs : s < 65536)
    (hlk : lookupSent a.sentPackets s = some sp)
    (hwin : inWindow (headerAckSeq p) s) :
    lookupSent (a.processIncoming p).state.sentPackets s = none ∧
    eventsFor s (a.processIncoming p).events =
      (if sp.packetType = PacketType.data then
        (if headerAckSeq p = s then [AckEvent.delivered s]
         else if Nat.testBit (headerAckField p) (wrapSub (headerAckSeq p) s - 1) then
           [AckEvent.delivered s]
         else [AckEvent.dropped s])
       else []) := by
  rw [processIncoming_sent_eq, processIncoming_events_eq]
  by_cases he : headerAckSeq p = s
  · rw [he]
    rw [directAck_of_some _ _ sp hlk]
    have h' : lookupSent (removeSent a.sentPackets s) s = none := by
      rw [lookupSent_removeSent, if_pos rfl]
    obtain ⟨w1, w2⟩ := processAckWindow_absent s 32 1 (headerAckField p)
      (removeSent a.sentPackets s) s h'
    refine ⟨w1, ?_⟩
    rw [eventsFor_append, w2, List.append_nil, if_pos rfl]
    by_cases hd : sp.packetType = PacketType.data <;>
      simp [hd, eventsFor, isForSeq]
  · obtain ⟨hj1, hj2⟩ := hwin.resolve_left he
    have hjs : wrapSub (headerAckSeq p) (wrapSub (headerAckSeq p) s) = s :=
      wrapSub_wrapSub _ s hs
    have hdir1 : lookupSent (directAck a.sentPackets (headerAckSeq p)).1 s = some sp := by
      rcases hd : lookupSent a.sentPackets (headerAckSeq p) with _ | sp0
      · rw [directAck_of_none _ _ hd]
        exact hlk
      · rw [directAck_of_some _ _ sp0 hd]
        show lookupSent (removeSent _ _) s = some sp
        rw [lookupSent_removeSent, if_neg (fun hc => he hc.symm)]
        exact hlk
    have hdir2 : eventsFor s (directAck a.sentPackets (headerAckSeq p)).2 = [] := by
      rcases hd : lookupSent a.sentPackets (headerAckSeq p) with _ | sp0
      · rw [directAck_of_none _ _ hd]
        rfl
      · rw [directAck_of_some _ _ sp0 hd]
        exact eventsFor_direct_ne s _ sp0 he
    obtain ⟨w1, w2⟩ := processAckWindow_present (headerAckSeq p) 32 1 (headerAckField p)
      (directAck a.sentPackets (headerAckSeq p)).1 (wrapSub (headerAckSeq p) s) sp
      hj1 (by omega) (by omega) (by rw [hjs]; exact hdir1)
    rw [hjs] at w1 w2
    refine ⟨w1, ?_⟩
    rw [eventsFor_append, hdir2, w2, List.nil_append]
    by_cases hd : sp.packetType = PacketType.data
    · rw [if_pos hd, if_pos hd, if_neg he]
    · rw [if_neg hd, if_neg hd]

/-- A present sent sequence not covered by the incoming ack window is
untouched: the entry survives and no event is emitted for it. -/
lemma processIncoming_miss (a : AckManager) (p : List Nat) (s : Nat) (sp : SentPacket)
    (_hs : s < 65536)
    (hlk : lookupSent a.sentPackets s = some sp)
    (hnw : ¬ inWindow (headerAckSeq p) s) :
    lookupSent (a.processIncoming p).state.sentPackets s = some sp ∧
    eventsFor s (a.processIncoming p).events = [] := by
  rw [processIncoming_sent_eq, processIncoming_events_eq]
  have he : headerAckSeq p ≠ s := fun hc => hnw (Or.inl hc)
  have hout : ∀ j, 1 ≤ j → j < 1 + 32 → wrapSub (headerAckSeq p) j ≠ s := by
    intro j hj1 hj2 hc
    apply hnw
    right
    have hjj : wrapSub (headerAckSeq p) (wrapSub (headerAckSeq p) j) = j :=
      wrapSub_wrapSub _ j (by omega)
    rw [hc] at hjj
    omega
  have hdir1 : lookupSent (directAck a.sentPackets (headerAckSeq p)).1 s = some sp := by
    rcases hd : lookupSent a.sentPackets (headerAckSeq p) with _ | sp0
    · rw [directAck_of_none _ _ hd]
      exact hlk
    · rw [directAck_of_some _ _ sp0 hd]
      show lookupSent (removeSent _ _) s = some sp
      rw [lookupSent_removeSent, if_neg (fun hc => he hc.symm)]
      exact hlk
  have hdir2 : eventsFor s (directAck a.sentPackets (headerAckSeq p)).2 = [] := by
    rcases hd : lookupSent a.sentPackets (headerAckSeq p) with _ | sp0
    · rw [directAck_of_none _ _ hd]
      rfl
    · rw [directAck_of_some _ _ sp0 hd]
      exact eventsFor_direct_ne s _ sp0 he
  obtain ⟨w1, w2⟩ := processAckWindow_outside (headerAckSeq p) 32 1 (headerAckField p)
    (directAck a.sentPackets (headerAckSeq p)).1 s hout
  refine ⟨by rw [w1]; exact hdir1, ?_⟩
  rw [eventsFor_append, hdir2, w2]
  rfl

/-! ## Trace-level lemmas -/

lemma processTrace_absent (s : Nat) :
    ∀ (ps : List (List Nat)) (a : AckManager),
      lookupSent a.sentPackets s = none →
      (∀ j, eventsFor s (((processTrace a ps).2).getD j []) = []) ∧
      lookupSent ((processTrace a ps).1).sentPackets s = none := by
  intro ps
  induction ps with
  | nil =>
    intro a h
    refine ⟨?_, h⟩
    intro j
    show eventsFor s (List.getD [] j []) = []
    cases j <;> rfl
  | cons p rest ih =>
    intro a h
    obtain ⟨h1, h2⟩ := processIncoming_absent a p s h
    obtain ⟨ih1, ih2⟩ := ih (a.processIncoming p).state h1
    refine ⟨?_, ih2⟩
    intro j
    match j with
    | 0 => exact h2
    | j + 1 => exact ih1 j

/-- Claim C1, amended: for every sent Data packet with sequence s, at
most one of delivered(s) / dropped(s) is emitted, and it is emitted
exactly while processing the first incoming packet whose ack_seq lies
in the wrap-window [s, s+32] (that call emits exactly one notification
for s, every other call emits none); an incoming ack_seq that is
wrap-aware at least s+32 but outside that window triggers no emission
for s. -/
theorem C1_amended_delivery :
    ∀ (s : Nat) (sp : SentPacket), sp.packetType = PacketType.data → s < 65536 →
    ∀ (ps : List (List Nat)) (a : AckManager) (k : Nat),
      lookupSent a.sentPackets s = some sp →
      k < ps.length →
      inWindow (headerAckSeq (ps.getD k [])) s →
      (∀ j, j < k → ¬ inWindow (headerAckSeq (ps.getD j [])) s) →
      (eventsFor s (((processTrace a ps).2).getD k [])).length = 1 ∧
      (∀ j, j ≠ k → eventsFor s (((processTrace a ps).2).getD j []) = []) := by
  intro s sp hd hs ps
  induction ps with
  | nil =>
    intro a k _ hk
    exact absurd hk (by simp)
  | cons p rest ih =>
    intro a k hsp hk hwin hfirst
    cases k with
    | zero =>
      obtain ⟨h1, h2⟩ := processIncoming_present a p s sp hs hsp hwin
      obtain ⟨t1, _⟩ := processTrace_absent s rest (a.processIncoming p).state h1
      constructor
      · show (eventsFor s ((a.processIncoming p).events)).length = 1
        rw [h2, if_pos hd]
        by_cases he : headerAckSeq p = s
        · rw [if_pos he]
          rfl
        · rw [if_neg he]
          by_cases hb2 : Nat.testBit (headerAckField p) (wrapSub (headerAckSeq p) s - 1)
          · rw [if_pos hb2]
            rfl
          · rw [if_neg hb2]
            rfl
      · intro j hj
        cases j with
        | zero => exact absurd rfl hj
        | succ j =>
          show eventsFor s
            (((processTrace (a.processIncoming p).state rest).2).getD j []) = []
          exact t1 j
    | succ k =>
      have hnw : ¬ inWindow (headerAckSeq p) s := hfirst 0 (Nat.succ_pos k)
      obtain ⟨m1, m2⟩ := processIncoming_miss a p s sp hs hsp hnw
      obtain ⟨ih1, ih2⟩ := ih (a.processIncoming p).state k m1
        (by simpa using hk) hwin (fun j hj => hfirst (j + 1) (by omega))
      constructor
      · exact ih1
      · intro j hj
        cases j with
        | zero => exact m2
        | succ j =>
          show eventsFor s
            (((processTrace (a.processIncoming p).state rest).2).getD j []) = []
          exact ih2 j (by omega)

/-- The ack state used by the C1 witness: one in-flight Data packet at
sequence 4. -/
def c1wState : AckManager :=
  { AckManager.new with
      sentPackets := [(4, { id := 4, packetType := PacketType.data })] }

/-- The incoming packet used by the C1 witness: ack_seq 5, bit 0 set. -/
def c1wPacket : List Nat :=
  StandardHeader.write
    { packetType := PacketType.data, sequence := 0, ackSeq := 5, ackField := 1 }

/-- Witness for C1 (amended) at a concrete input: the first incoming
packet covering sequence 4 emits exactly one notification for it, and
no other call emits any. -/
theorem C1_witness :
    (eventsFor 4 (((processTrace c1wState [c1wPacket]).2).getD 0 [])).length = 1 ∧
    (∀ j, j ≠ 0 → eventsFor 4 (((processTrace c1wState [c1wPacket]).2).getD j []) = []) :=
  C1_amended_delivery 4 { id := 4, packetType := PacketType.data } (by decide) (by decide)
    [c1wPacket] c1wState 0 (by decide) (by decide) (by decide)
    (fun j hj => absurd hj (Nat.not_lt_zero j))

/-- Claim C4, amended: during process_incoming, for every i in 1..=32
with s = ack_seq - i (wrapping), if sent_packets contains s then the
entry is removed, and — when the entry's packet_type is Data — exactly
delivered(s) is emitted (to the event manager and the notifiable) when
bit i-1 of the ack_field is 1 and exactly dropped(s) when it is 0; for
a non-Data entry the removal is silent. -/
theorem C4_amended_notify (a : AckManager) (p : List Nat) (i : Nat) (sp : SentPacket)
    (s : Nat)
    (h1 : 1 ≤ i) (h2 : i ≤ 32)
    (hseq : s = wrapSub (headerAckSeq p) i)
    (hlk : lookupSent a.sentPackets s = some sp) :
    lookupSent (a.processIncoming p).state.sentPackets s = none ∧
    (sp.packetType = PacketType.data →
      eventsFor s (a.processIncoming p).events =
        (if Nat.testBit (headerAckField p) (i - 1) then [AckEvent.delivered s]
         else [AckEvent.dropped s])) ∧
    (sp.packetType ≠ PacketType.data →
      eventsFor s (a.processIncoming p).events = []) := by
  have hs : s < 65536 := hseq ▸ wrapSub_lt _ _
  have hi : wrapSub (headerAckSeq p) s = i := by
    rw [hseq, wrapSub_wrapSub _ i (by omega)]
  have hne : headerAckSeq p ≠ s := by
    intro he
    have h0 : wrapSub (headerAckSeq p) s = 0 := by
      rw [he]
      unfold wrapSub
      omega
    omega
  have hwin : inWindow (headerAckSeq p) s := Or.inr (by omega)
  obtain ⟨hp1, hp2⟩ := processIncoming_present a p s sp hs hlk hwin
  refine ⟨hp1, ?_, ?_⟩
  · intro hdata
    rw [hp2, if_pos hdata, if_neg hne, hi]
  · intro hdata
    rw [hp2, if_neg hdata]

/-- The ack state used by the C4 witness: one in-flight Data packet at
sequence 4. -/
def c4wState : AckManager :=
  { AckManager.new with
      sentPackets := [(4, { id := 4, packetType := PacketType.data })] }

/-- The incoming packet used by the C4 witness: ack_seq 5 and ack-field
bit 0 set, covering sequence 4 at window position i = 1. -/
def c4wPacket : List Nat :=
  StandardHeader.write
    { packetType := PacketType.data, sequence := 0, ackSeq := 5, ackField := 1 }

/-- Witness for C4 (amended) at a concrete input: the Data entry at
sequence 4 is removed and delivered(4) is emitted. -/
theorem C4_witness :
    lookupSent (c4wState.processIncoming c4wPacket).state.sentPackets 4 = none ∧
    (({ id := 4, packetType := PacketType.data } : SentPacket).packetType
        = PacketType.data →
      eventsFor 4 (c4wState.processIncoming c4wPacket).events =
        (if Nat.testBit (headerAckField c4wPacket) (1 - 1) then [AckEvent.delivered 4]
         else [AckEvent.dropped 4])) ∧
    (({ id := 4, packetType := PacketType.data } : SentPacket).packetType
        ≠ PacketType.data →
      eventsFor 4 (c4wState.processIncoming c4wPacket).events = []) :=
  C4_amended_notify c4wState c4wPacket 1 { id := 4, packetType := PacketType.data } 4
    (by decide) (by decide) (by decide) (by decide)

/-- The connection used by the C10 witness: its single queued event is
too large for any packet, so the first write is rejected. -/
def c10Conn : ServerConnection :=
  { ackManager := AckManager.new,
    outgoingEvents := [{ gaiaId := 1, payload := List.replicate 500 0 }] }

/-- Witness for C10 at a concrete input: the oversized event is
rejected, get_outgoing_packet yields None and the connection is
unchanged. -/
theorem C10_witness : (c10Conn.getOutgoingPacket).1 = c10Conn :=
  C10_none_frame c10Conn (by decide)

end Naia
